import Mathlib

/-!
# go-skeltrack: a verification development

Shallow embedding of the Go binding `skeltrack` (`joint.go`, `skeleton.go`) and of the
depth preprocessor `scaleDepth` of `examples/simple.go`.

Conventions of the embedding.

* Go `int` is the 64-bit two's complement integer of the targets the binding builds for;
  a value is an `Int` and every arithmetic result is wrapped by `wrapInt`.
* `C.guint` / `C.uint` are 32-bit unsigned: a conversion reduces modulo `2^32`.
* A Go or C pointer is an `Option Nat`: `none` is `nil`, `some a` is the address `a`.
* A Go `error` is an `Option String`: `none` is `nil`, `some msg` is `errors.New(msg)`.
* The native library (libskeltrack, GObject) is not part of the repository: its entry points
  are fields of the structure `Native`, its enum constants the fields of `SkeltrackEnum`.
-/

namespace Skeltrack

/-! ## Machine integers -/

/-- Two's complement wrap of a mathematical integer into the range of a Go `int`:
`(x + 2^63) mod 2^64 - 2^63`. -/
def wrapInt (x : Int) : Int := (x + 9223372036854775808) % 18446744073709551616 - 9223372036854775808

/-- Go `a * b` on `int`. -/
def mulInt (a b : Int) : Int := wrapInt (a * b)

/-- Go `a + b` on `int`. -/
def addInt (a b : Int) : Int := wrapInt (a + b)

/-- Go `a - b` on `int`. -/
def subInt (a b : Int) : Int := wrapInt (a - b)

/-- The values a Go `int` can hold: from `-2^63` up to `2^63 - 1`. -/
def inInt (x : Int) : Prop := -9223372036854775808 ≤ x ∧ x < 9223372036854775808

instance (x : Int) : Decidable (inInt x) := by unfold inInt; infer_instance

/-- The conversion `C.guint(x)` (also `C.uint(x)`) of a Go integer: reduction modulo `2^32`. -/
def guint (x : Int) : Nat := (x % 4294967296).toNat

/-! ## joint.go: JointID -/

/-- The type `JointID` of joint.go (`type JointID int`). -/
abbrev JointID := Int

/-- The constants `SKELTRACK_JOINT_ID_*` of the native header `skeltrack.h`, which is not part
of the repository. -/
structure SkeltrackEnum where
  HEAD : Int
  LEFT_SHOULDER : Int
  RIGHT_SHOULDER : Int
  LEFT_ELBOW : Int
  RIGHT_ELBOW : Int
  LEFT_HAND : Int
  RIGHT_HAND : Int

/-- The values the enum has in skeltrack.h: consecutive from zero. -/
def skeltrackH : SkeltrackEnum :=
  { HEAD := 0, LEFT_SHOULDER := 1, RIGHT_SHOULDER := 2, LEFT_ELBOW := 3, RIGHT_ELBOW := 4,
    LEFT_HAND := 5, RIGHT_HAND := 6 }

/-- The seven native ids are pairwise different. -/
def SkeltrackEnum.Distinct (c : SkeltrackEnum) : Prop :=
  [c.HEAD, c.LEFT_SHOULDER, c.RIGHT_SHOULDER, c.LEFT_ELBOW, c.RIGHT_ELBOW, c.LEFT_HAND,
    c.RIGHT_HAND].Nodup

instance (c : SkeltrackEnum) : Decidable c.Distinct := by
  unfold SkeltrackEnum.Distinct; infer_instance

def JointHead (c : SkeltrackEnum) : JointID := c.HEAD
def JointLeftShoulder (c : SkeltrackEnum) : JointID := c.LEFT_SHOULDER
def JointRightShoulder (c : SkeltrackEnum) : JointID := c.RIGHT_SHOULDER
def JointLeftElbow (c : SkeltrackEnum) : JointID := c.LEFT_ELBOW
def JointRightElbow (c : SkeltrackEnum) : JointID := c.RIGHT_ELBOW
def JointLeftHand (c : SkeltrackEnum) : JointID := c.LEFT_HAND
def JointRightHand (c : SkeltrackEnum) : JointID := c.RIGHT_HAND

/-- The seven `JointID` constants, in the order joint.go declares them. -/
def jointIDs (c : SkeltrackEnum) : List JointID :=
  [JointHead c, JointLeftShoulder c, JointRightShoulder c, JointLeftElbow c, JointRightElbow c,
    JointLeftHand c, JointRightHand c]

/-- The method `JointID.String`: a switch over the seven constants, first match wins. -/
def JointID.String (c : SkeltrackEnum) (jointID : JointID) : String :=
  if jointID = JointHead c then "head"
  else if jointID = JointLeftShoulder c then "left shoulder"
  else if jointID = JointRightShoulder c then "right shoulder"
  else if jointID = JointLeftElbow c then "left elbow"
  else if jointID = JointRightElbow c then "right elbow"
  else if jointID = JointLeftHand c then "left hand"
  else if jointID = JointRightHand c then "right hand"
  else "invalid"

/-! ## joint.go: Joint -/

/-- The struct `Joint`: one field, the pointer to the native `SkeltrackJoint`. -/
structure Joint where
  joint : Option Nat
deriving DecidableEq, Repr

/-- The Go map `map[JointID]Joint`: an association list holding each key at most once. -/
abbrev JointMap := List (JointID × Joint)

/-- The Go expression `make(map[JointID]Joint)`. -/
def JointMap.make : JointMap := []

/-- The Go statement `m[k] = v`: the entry of `k` is replaced or added. -/
def JointMap.assign (m : JointMap) (k : JointID) (v : Joint) : JointMap :=
  (k, v) :: m.filter (fun e => e.1 != k)

/-- The Go expression `v, ok := m[k]`. -/
def JointMap.get? (m : JointMap) (k : JointID) : Option Joint := m.lookup k

/-- The keys of the map. -/
def JointMap.keys (m : JointMap) : List JointID := m.map Prod.fst

/-! ## skeleton.go: Skeleton and TrackJoints -/

/-- The struct `Skeleton`: one field, the pointer to the native `SkeltrackSkeleton`. -/
structure Skeleton where
  skeleton : Option Nat
deriving DecidableEq, Repr

/-- The arguments of one call of `skeltrack_skeleton_track_joints_sync`. -/
structure TrackCall where
  handle : Option Nat
  buffer : List Nat
  width : Nat
  height : Nat
deriving DecidableEq, Repr

/-- The native entry points TrackJoints uses, over a native tracker state `σ` and a native joint
list type `L`. `track_joints_sync` gets the tracker state, the handle, the depth buffer the data
pointer designates and the two `guint` dimensions; it yields the new tracker state, the `GError`
message (`none` when no error was set) and the joint list pointer (`none` for `NULL`). -/
structure Native (σ L : Type) where
  track_joints_sync : σ → Option Nat → List Nat → Nat → Nat → σ × Option String × Option L
  joint_list_get_joint : L → Int → Option Nat

/-- What a call of the binding can change: the native tracker state, and the record of the
native tracking calls made so far. -/
structure World (σ : Type) where
  native : σ
  calls : List TrackCall

/-- The pattern `x := get_joint(list, ID); if x != nil { joints[K] = Joint{x} }`. -/
def storeJoint (joints : JointMap) (k : JointID) (p : Option Nat) : JointMap :=
  match p with
  | some a => joints.assign k { joint := some a }
  | none => joints

/-- The method `Skeleton.TrackJoints`. The result is the returned pair (mapping, error), the
receiver after the call and the world after the call. -/
def TrackJoints {σ L : Type} (c : SkeltrackEnum) (N : Native σ L) (skeleton : Skeleton)
    (w : World σ) (depth : List Nat) (width height : Int) :
    (JointMap × Option String) × Skeleton × World σ :=
  if (depth.length : Int) ≠ mulInt width height then
    ((JointMap.make, some "width and height values do not match depth buffer size"), skeleton, w)
  else
    let r := N.track_joints_sync w.native skeleton.skeleton depth (guint width) (guint height)
    let w1 : World σ :=
      { native := r.1,
        calls := w.calls ++ [{ handle := skeleton.skeleton, buffer := depth,
                               width := guint width, height := guint height }] }
    match r.2.1 with
    | some message => ((JointMap.make, some message), skeleton, w1)
    | none =>
      let joints := JointMap.make
      match r.2.2 with
      | none => ((joints, none), skeleton, w1)
      | some list =>
        let joints := storeJoint joints (JointHead c) (N.joint_list_get_joint list c.HEAD)
        let joints := storeJoint joints (JointLeftShoulder c)
          (N.joint_list_get_joint list c.LEFT_SHOULDER)
        let joints := storeJoint joints (JointRightShoulder c)
          (N.joint_list_get_joint list c.RIGHT_SHOULDER)
        let joints := storeJoint joints (JointLeftElbow c)
          (N.joint_list_get_joint list c.LEFT_ELBOW)
        let joints := storeJoint joints (JointRightElbow c)
          (N.joint_list_get_joint list c.RIGHT_ELBOW)
        let joints := storeJoint joints (JointLeftHand c)
          (N.joint_list_get_joint list c.LEFT_HAND)
        let joints := storeJoint joints (JointRightHand c)
          (N.joint_list_get_joint list c.RIGHT_HAND)
        ((joints, none), skeleton, w1)

/-- A toy native tracker for concrete evaluations: the state counts the frames seen, no error
is ever set, and the joint list of a frame holds a head at address 100 and a left hand at
address 105 when the frame has at least one sample, and is `NULL` otherwise. -/
def demoNative : Native Nat (List (Int × Nat)) :=
  { track_joints_sync := fun s _ buffer _ _ =>
      (s + 1, none, if buffer.length = 0 then none else some [(0, 100), (5, 105)]),
    joint_list_get_joint := fun l id => l.lookup id }

/-- A native tracker whose tracking call always sets an error. -/
def failingNative : Native Nat (List (Int × Nat)) :=
  { track_joints_sync := fun s _ _ _ _ => (s + 1, some "native failure", none),
    joint_list_get_joint := fun l id => l.lookup id }

/-- A skeleton with handle 7 in a fresh world. -/
def demoSkeleton : Skeleton := { skeleton := some 7 }

def demoWorld : World Nat := { native := 0, calls := [] }

/-! ## Results of calls that may stop abnormally -/

/-- How a call ends: with a value, with a Go run-time panic, or with a read through a pointer
into native memory that has already been released (no panic is raised there; what is read is
not defined). -/
inductive Outcome (α : Type) where
  | ok (value : α)
  | panic (msg : String)
  | danglingRead (addr : Nat)
deriving DecidableEq, Repr

/-- Sequencing: the second step runs only when the first ended with a value. -/
def Outcome.bind {α β : Type} (o : Outcome α) (f : α → Outcome β) : Outcome β :=
  match o with
  | .ok v => f v
  | .panic msg => .panic msg
  | .danglingRead a => .danglingRead a

instance : Monad Outcome where
  pure := Outcome.ok
  bind := Outcome.bind

/-- The call ended with a Go panic. -/
def Outcome.isPanic {α : Type} : Outcome α → Bool
  | .panic _ => true
  | _ => false

/-- The call ended with a value. -/
def Outcome.isOk {α : Type} : Outcome α → Bool
  | .ok _ => true
  | _ => false

/-! ## joint.go: the methods of Joint -/

/-- The fields of the native struct `SkeltrackJoint` the binding reads. -/
structure SkeltrackJoint where
  id : Int
  x : Int
  y : Int
  z : Int
  screen_x : Int
  screen_y : Int
deriving DecidableEq, Repr

/-- The native heap of joint records: the record living at an address, `none` where nothing
lives (never allocated, or released). -/
abbrev JointHeap := Nat → Option SkeltrackJoint

/-- The native `skeltrack_joint_free`: the record at the address is released. -/
def skeltrack_joint_free (heap : JointHeap) (addr : Nat) : JointHeap :=
  fun a => if a = addr then none else heap a

/-- The method `Joint.Type`. -/
def Joint.Type (heap : JointHeap) (joint : Joint) : Outcome JointID :=
  match joint.joint with
  | none => .panic "cannot get the type of a nil Joint object"
  | some a =>
    match heap a with
    | some r => .ok r.id
    | none => .danglingRead a

/-- The method `Joint.Coords`. -/
def Joint.Coords (heap : JointHeap) (joint : Joint) : Outcome (Int × Int × Int) :=
  match joint.joint with
  | none => .panic "cannot get the coordinates of a nil Joint object"
  | some a =>
    match heap a with
    | some r => .ok (r.x, r.y, r.z)
    | none => .danglingRead a

/-- The method `Joint.ScreenCoords`. -/
def Joint.ScreenCoords (heap : JointHeap) (joint : Joint) : Outcome (Int × Int) :=
  match joint.joint with
  | none => .panic "cannot get the screen coordinates of a nil Joint object"
  | some a =>
    match heap a with
    | some r => .ok (r.screen_x, r.screen_y)
    | none => .danglingRead a

/-- The method `Joint.Free`: the native record is released when the pointer is not nil; the
field `joint` is not assigned. The result is the receiver and the heap after the call. -/
def Joint.Free (heap : JointHeap) (joint : Joint) : Joint × JointHeap :=
  match joint.joint with
  | some a => (joint, skeltrack_joint_free heap a)
  | none => (joint, heap)

/-- A heap with one joint record, a head, at address 100. -/
def demoHeap : JointHeap :=
  fun a => if a = 100 then
    some { id := 0, x := 10, y := 20, z := 900, screen_x := 320, screen_y := 240 } else none

/-! ## skeleton.go: parameters -/

/-- The conversion `C.uint(value)` of a Go `uint`: reduction modulo `2^32`. -/
def cuint (value : Nat) : Nat := value % 4294967296

/-- The GObject property access the parameter helpers call, over a native state `σ`.
`g_object_get` gets the state, the object, the property name and the present content of the
cell `val` points to, and yields the content of that cell after the call; `g_object_set` yields
the state after the call. Neither has a result the caller could test. -/
structure GObject (σ : Type) where
  g_object_get : σ → Option Nat → String → Nat → Nat
  g_object_set : σ → Option Nat → String → Nat → σ

/-- The C helper `getObjParamUint` of the cgo preamble. -/
def getObjParamUint {σ : Type} (G : GObject σ) (st : σ) (object : Option Nat) (name : String)
    (val : Nat) : Nat :=
  G.g_object_get st object name val

/-- The C helper `setObjParamUint` of the cgo preamble. -/
def setObjParamUint {σ : Type} (G : GObject σ) (st : σ) (object : Option Nat) (name : String)
    (val : Nat) : σ :=
  G.g_object_set st object name val

/-- The method `Skeleton.DimensionReduction`. -/
def DimensionReduction {σ : Type} (G : GObject σ) (skeleton : Skeleton) (st : σ) : Nat :=
  let value := 0
  let value := getObjParamUint G st skeleton.skeleton "dimension-reduction" value
  value

/-- The method `Skeleton.SetDimensionReduction`. It has no result: the call ends normally,
and the second component is the native state after it. -/
def SetDimensionReduction {σ : Type} (G : GObject σ) (skeleton : Skeleton) (st : σ)
    (value : Nat) : Outcome Unit × σ :=
  (.ok (), setObjParamUint G st skeleton.skeleton "dimension-reduction" (cuint value))

/-- A property store that behaves as GLib does for a ranged unsigned property: the state is the
value of `dimension-reduction`; a value outside [1, 1024] is not stored. -/
def rangedStore : GObject Nat :=
  { g_object_get := fun st _ name val => if name = "dimension-reduction" then st else val,
    g_object_set := fun st _ name v =>
      if name = "dimension-reduction" ∧ 1 ≤ v ∧ v ≤ 1024 then v else st }

/-! ## examples/simple.go: scaleDepth -/

def ThresholdBegin : Nat := 50
def ThresholdEnd : Nat := 1500

/-- Go `a % b` on `int`: truncated remainder, a run-time panic when `b` is zero. -/
def remInt (a b : Int) : Outcome Int :=
  if b = 0 then .panic "integer divide by zero" else .ok (Int.tmod a b)

/-- Go `a / b` on `int`: truncated quotient, a run-time panic when `b` is zero. -/
def divInt (a b : Int) : Outcome Int :=
  if b = 0 then .panic "integer divide by zero" else .ok (wrapInt (Int.tdiv a b))

/-- Go `make([]uint16, n)`: `n` zeroes, a run-time panic when `n` is negative. Go also
refuses a length beyond what the run time can allocate; that limit is not modelled, and the
statements about scaleDepth concern a result no longer than the buffer it is given. -/
def makeSlice (n : Int) : Outcome (List Nat) :=
  if n < 0 then .panic "makeslice: len out of range" else .ok (List.replicate n.toNat 0)

/-- Go `s[i]` as a value: a run-time panic when `i` is outside the slice. -/
def readAt (s : List Nat) (i : Int) : Outcome Nat :=
  if 0 ≤ i ∧ i < s.length then .ok (s.getD i.toNat 0) else .panic "index out of range"

/-- Go `s[i] = v`: a run-time panic when `i` is outside the slice. -/
def writeAt (s : List Nat) (i : Int) (v : Nat) : Outcome (List Nat) :=
  if 0 ≤ i ∧ i < s.length then .ok (s.set i.toNat v) else .panic "index out of range"

/-- The iterations `i, i+1, ..., i+n-1` of a loop body over a state, stopping at the first
iteration that does not end with a value. -/
def loopFrom {β : Type} (body : Nat → β → Outcome β) : Nat → Nat → β → Outcome β
  | 0, _, s => .ok s
  | n + 1, i, s => (body i s).bind (fun s1 => loopFrom body n (i + 1) s1)

/-- The Go loop `for i := 0; i < bound; i++ { body }`: no iteration when `bound ≤ 0`. The
counter stays below `bound`, itself an `int`, so `i++` never wraps. -/
def forLoop {β : Type} (bound : Int) (body : Nat → β → Outcome β) (s : β) : Outcome β :=
  loopFrom body bound.toNat 0 s

/-- The body of the inner loop of scaleDepth, for the cell `(x, y)`. -/
def scaleCell (data : List Nat) (width scaledValue scaledWidth : Int) (x y : Nat)
    (scaledData : List Nat) : Outcome (List Nat) :=
  let index := addInt (mulInt (mulInt y width) scaledValue) (mulInt x scaledValue)
  (readAt data index).bind fun value =>
    if value < ThresholdBegin ∨ value > ThresholdEnd then
      writeAt scaledData (addInt (mulInt y scaledWidth) x) 0
    else
      writeAt scaledData (addInt (mulInt y scaledWidth) x) value

/-- The function `scaleDepth` of examples/simple.go. -/
def scaleDepth (data : List Nat) (width height scaledValue : Int) : Outcome (List Nat) :=
  (remInt width scaledValue).bind fun rw =>
  (divInt (subInt width rw) scaledValue).bind fun scaledWidth =>
  (remInt height scaledValue).bind fun rh =>
  (divInt (subInt height rh) scaledValue).bind fun scaledHeight =>
  (makeSlice (mulInt scaledWidth scaledHeight)).bind fun scaledData =>
  forLoop scaledWidth (fun x scaledData =>
    forLoop scaledHeight (fun y scaledData =>
      scaleCell data width scaledValue scaledWidth x y scaledData) scaledData) scaledData

/-- The value the reduced grid is to hold for a source sample. -/
def threshold (value : Nat) : Nat :=
  if ThresholdBegin ≤ value ∧ value ≤ ThresholdEnd then value else 0

/-- The invariant of the joint-collecting part of TrackJoints: each key occurs once, and the
entries of the map are the detected joints among the ids `ks` of the native list. -/
def Holds (get : Int → Option Nat) (ks : List JointID) (m : JointMap) : Prop :=
  m.keys.Nodup ∧
    ∀ k v, (k, v) ∈ m ↔ (k ∈ ks ∧ ∃ a, get k = some a ∧ v = { joint := some a })

/-- The invariant of the two loops of scaleDepth: the grid has its full size, and every cell the
loops have passed (columns before `x`, and the rows before `y` of column `x`) holds the
thresholded top-left sample of its block. -/
def Filled (data : List Nat) (W R sw sh x y : Nat) (s : List Nat) : Prop :=
  s.length = sw * sh ∧
    ∀ x1 y1, x1 < sw → y1 < sh → (x1 < x ∨ (x1 = x ∧ y1 < y)) →
      s[y1 * sw + x1]? = some (threshold (data.getD (y1 * W * R + x1 * R) 0))

/-! # Theorems -/

/-! ## Machine integers -/

theorem wrapInt_of_inInt {x : Int} (h : inInt x) : wrapInt x = x := by
  unfold inInt at h
  unfold wrapInt
  omega

theorem mulInt_of_inInt {a b : Int} (h : inInt (a * b)) : mulInt a b = a * b :=
  wrapInt_of_inInt h

theorem addInt_of_inInt {a b : Int} (h : inInt (a + b)) : addInt a b = a + b :=
  wrapInt_of_inInt h

theorem subInt_of_inInt {a b : Int} (h : inInt (a - b)) : subInt a b = a - b :=
  wrapInt_of_inInt h

/-! ## Lemmas on the Go map -/

theorem JointMap.mem_assign (m : JointMap) (k : JointID) (v : Joint) (k1 : JointID) (v1 : Joint) :
    (k1, v1) ∈ m.assign k v ↔ (k1 = k ∧ v1 = v) ∨ ((k1, v1) ∈ m ∧ k1 ≠ k) := by
  simp [JointMap.assign, List.mem_filter]

theorem JointMap.keys_assign_nodup (m : JointMap) (k : JointID) (v : Joint)
    (h : m.keys.Nodup) : (m.assign k v).keys.Nodup := by
  unfold JointMap.keys at *
  simp only [JointMap.assign, List.map_cons, List.nodup_cons, List.mem_map, not_exists, not_and]
  refine ⟨?_, ?_⟩
  · intro e he hk
    simp [List.mem_filter] at he
    exact he.2 hk
  · exact (List.filter_sublist m).map Prod.fst |>.nodup h

theorem JointMap.get?_eq_some_of_mem (m : JointMap) (h : m.keys.Nodup) (k : JointID) (v : Joint)
    (hm : (k, v) ∈ m) : m.get? k = some v := by
  unfold JointMap.get? JointMap.keys at *
  induction m with
  | nil => simp at hm
  | cons e t ih =>
    obtain ⟨k0, v0⟩ := e
    simp only [List.map_cons, List.nodup_cons, List.mem_map, not_exists, not_and] at h
    rcases List.mem_cons.mp hm with heq | hin
    · cases heq
      simp [List.lookup]
    · have hne : k ≠ k0 := by
        intro hk
        exact h.1 (k, v) hin hk
      have : (k == k0) = false := by simpa using hne
      simp only [List.lookup, this]
      exact ih h.2 hin

theorem JointMap.get?_eq_none_of_not_mem_keys (m : JointMap) (k : JointID) (h : k ∉ m.keys) :
    m.get? k = none := by
  unfold JointMap.get? JointMap.keys at *
  induction m with
  | nil => simp [List.lookup]
  | cons e t ih =>
    obtain ⟨k0, v0⟩ := e
    simp only [List.map_cons, List.mem_cons, not_or] at h
    have : (k == k0) = false := by simpa using h.1
    simp only [List.lookup, this]
    exact ih h.2

theorem holds_make (get : Int → Option Nat) : Holds get [] JointMap.make := by
  refine ⟨by simp [JointMap.make, JointMap.keys], ?_⟩
  intro k v
  simp [JointMap.make]

theorem holds_storeJoint (get : Int → Option Nat) (ks : List JointID) (m : JointMap)
    (k : JointID) (h : Holds get ks m) : Holds get (ks ++ [k]) (storeJoint m k (get k)) := by
  obtain ⟨hn, hm⟩ := h
  unfold storeJoint
  cases hg : get k with
  | none =>
    refine ⟨hn, ?_⟩
    intro k1 v1
    rw [hm k1 v1]
    constructor
    · rintro ⟨hk, a, ha, hv⟩
      exact ⟨List.mem_append_left _ hk, a, ha, hv⟩
    · rintro ⟨hk, a, ha, hv⟩
      rcases List.mem_append.mp hk with hk | hk
      · exact ⟨hk, a, ha, hv⟩
      · simp at hk
        subst hk
        rw [hg] at ha
        cases ha
  | some a0 =>
    refine ⟨JointMap.keys_assign_nodup m k _ hn, ?_⟩
    intro k1 v1
    rw [JointMap.mem_assign, hm k1 v1]
    constructor
    · rintro (⟨hk, hv⟩ | ⟨⟨hk, a, ha, hv⟩, _⟩)
      · subst hk
        exact ⟨by simp, a0, hg, hv⟩
      · exact ⟨List.mem_append_left _ hk, a, ha, hv⟩
    · rintro ⟨hk, a, ha, hv⟩
      by_cases hkk : k1 = k
      · left
        subst hkk
        rw [hg] at ha
        cases ha
        exact ⟨rfl, hv⟩
      · right
        rcases List.mem_append.mp hk with hk | hk
        · exact ⟨⟨hk, a, ha, hv⟩, hkk⟩
        · simp at hk
          exact absurd hk hkk

theorem TrackJoints_holds {σ L : Type} (c : SkeltrackEnum) (N : Native σ L) (skeleton : Skeleton)
    (w : World σ) (depth : List Nat) (width height : Int) (list : L)
    (hdim : (depth.length : Int) = mulInt width height)
    (herr : (N.track_joints_sync w.native skeleton.skeleton depth (guint width)
      (guint height)).2.1 = none)
    (hlist : (N.track_joints_sync w.native skeleton.skeleton depth (guint width)
      (guint height)).2.2 = some list) :
    Holds (N.joint_list_get_joint list) (jointIDs c)
      (TrackJoints c N skeleton w depth width height).1.1 := by
  have h0 := holds_make (N.joint_list_get_joint list)
  have h1 := holds_storeJoint _ _ _ (JointHead c) h0
  have h2 := holds_storeJoint _ _ _ (JointLeftShoulder c) h1
  have h3 := holds_storeJoint _ _ _ (JointRightShoulder c) h2
  have h4 := holds_storeJoint _ _ _ (JointLeftElbow c) h3
  have h5 := holds_storeJoint _ _ _ (JointRightElbow c) h4
  have h6 := holds_storeJoint _ _ _ (JointLeftHand c) h5
  have h7 := holds_storeJoint _ _ _ (JointRightHand c) h6
  unfold TrackJoints
  simp only [hdim, ne_eq, not_true_eq_false, if_false, herr, hlist]
  exact h7

/-! ## TrackJoints -/

/-- C1. When the guard `len(depth) != width*height` of TrackJoints holds (the product being the
Go `int` product, which is the mathematical one whenever that fits an `int`), the call returns a
non-nil error, the dimension-mismatch message, together with a mapping that has no keys. -/
theorem TrackJoints_dimension_mismatch {σ L : Type} (c : SkeltrackEnum) (N : Native σ L)
    (skeleton : Skeleton) (w : World σ) (depth : List Nat) (width height : Int)
    (h : (depth.length : Int) ≠ mulInt width height) :
    (TrackJoints c N skeleton w depth width height).1.2 =
        some "width and height values do not match depth buffer size" ∧
      (TrackJoints c N skeleton w depth width height).1.2 ≠ none ∧
      (TrackJoints c N skeleton w depth width height).1.1.keys = [] ∧
      ∀ k, (TrackJoints c N skeleton w depth width height).1.1.get? k = none := by
  unfold TrackJoints
  simp [h, JointMap.make, JointMap.keys, JointMap.get?, List.lookup]

theorem TrackJoints_dimension_mismatch_witness :
    ((([1, 2, 3] : List Nat).length : Int) ≠ mulInt 2 2) ∧
      (TrackJoints skeltrackH demoNative demoSkeleton demoWorld [1, 2, 3] 2 2).1.2 =
        some "width and height values do not match depth buffer size" ∧
      (TrackJoints skeltrackH demoNative demoSkeleton demoWorld [1, 2, 3] 2 2).1.2 ≠ none ∧
      (TrackJoints skeltrackH demoNative demoSkeleton demoWorld [1, 2, 3] 2 2).1.1.keys = [] ∧
      ∀ k, (TrackJoints skeltrackH demoNative demoSkeleton demoWorld [1, 2, 3] 2 2).1.1.get? k
        = none :=
  ⟨by decide,
    TrackJoints_dimension_mismatch skeltrackH demoNative demoSkeleton demoWorld [1, 2, 3] 2 2
      (by decide)⟩

/-- C2. On a successful call (the guard passes, the native call sets no error and returns a
non-NULL joint list) the returned mapping is the native list restricted to the detected joints:
a key is in the map exactly when it is one of the seven JointIDs and the native list holds a
non-nil joint for it; the value of such a key wraps that very joint; every entry of the map wraps
a non-nil joint, the one of its key; and no key occurs twice. -/
theorem TrackJoints_success_mapping {σ L : Type} (c : SkeltrackEnum) (N : Native σ L)
    (skeleton : Skeleton) (w : World σ) (depth : List Nat) (width height : Int) (list : L)
    (hdim : (depth.length : Int) = mulInt width height)
    (herr : (N.track_joints_sync w.native skeleton.skeleton depth (guint width)
      (guint height)).2.1 = none)
    (hlist : (N.track_joints_sync w.native skeleton.skeleton depth (guint width)
      (guint height)).2.2 = some list) :
    (TrackJoints c N skeleton w depth width height).1.2 = none ∧
      (∀ k, k ∈ (TrackJoints c N skeleton w depth width height).1.1.keys ↔
        (k ∈ jointIDs c ∧ N.joint_list_get_joint list k ≠ none)) ∧
      (∀ k a, k ∈ jointIDs c → N.joint_list_get_joint list k = some a →
        (TrackJoints c N skeleton w depth width height).1.1.get? k = some { joint := some a }) ∧
      (∀ k, (k ∉ jointIDs c ∨ N.joint_list_get_joint list k = none) →
        (TrackJoints c N skeleton w depth width height).1.1.get? k = none) ∧
      (∀ k v, (k, v) ∈ (TrackJoints c N skeleton w depth width height).1.1 →
        v.joint ≠ none ∧ v.joint = N.joint_list_get_joint list k) ∧
      (TrackJoints c N skeleton w depth width height).1.1.keys.Nodup := by
  obtain ⟨hn, hm⟩ := TrackJoints_holds c N skeleton w depth width height list hdim herr hlist
  have hkeys : ∀ k, k ∈ (TrackJoints c N skeleton w depth width height).1.1.keys ↔
      (k ∈ jointIDs c ∧ N.joint_list_get_joint list k ≠ none) := by
    intro k
    unfold JointMap.keys
    rw [List.mem_map]
    constructor
    · rintro ⟨⟨k1, v1⟩, he, hk⟩
      simp only at hk
      subst hk
      obtain ⟨hk, a, ha, _⟩ := (hm k1 v1).mp he
      exact ⟨hk, by simp [ha]⟩
    · rintro ⟨hk, hne⟩
      obtain ⟨a, ha⟩ := Option.ne_none_iff_exists'.mp hne
      exact ⟨(k, { joint := some a }), (hm k _).mpr ⟨hk, a, ha, rfl⟩, rfl⟩
  refine ⟨?_, hkeys, ?_, ?_, ?_, hn⟩
  · unfold TrackJoints
    simp only [hdim, ne_eq, not_true_eq_false, if_false, herr, hlist]
  · intro k a hk ha
    exact JointMap.get?_eq_some_of_mem _ hn k _ ((hm k _).mpr ⟨hk, a, ha, rfl⟩)
  · intro k hk
    apply JointMap.get?_eq_none_of_not_mem_keys
    rw [hkeys]
    rintro ⟨h1, h2⟩
    rcases hk with hk | hk
    · exact hk h1
    · exact h2 hk
  · intro k v he
    obtain ⟨_, a, ha, hv⟩ := (hm k v).mp he
    subst hv
    simp [ha]

theorem TrackJoints_success_mapping_witness :
    (TrackJoints skeltrackH demoNative demoSkeleton demoWorld [7] 1 1).1.2 = none ∧
      (∀ k, k ∈ (TrackJoints skeltrackH demoNative demoSkeleton demoWorld [7] 1 1).1.1.keys ↔
        (k ∈ jointIDs skeltrackH ∧
          demoNative.joint_list_get_joint [(0, 100), (5, 105)] k ≠ none)) ∧
      (∀ k a, k ∈ jointIDs skeltrackH →
        demoNative.joint_list_get_joint [(0, 100), (5, 105)] k = some a →
        (TrackJoints skeltrackH demoNative demoSkeleton demoWorld [7] 1 1).1.1.get? k =
          some { joint := some a }) ∧
      (∀ k, (k ∉ jointIDs skeltrackH ∨
          demoNative.joint_list_get_joint [(0, 100), (5, 105)] k = none) →
        (TrackJoints skeltrackH demoNative demoSkeleton demoWorld [7] 1 1).1.1.get? k = none) ∧
      (∀ k v, (k, v) ∈ (TrackJoints skeltrackH demoNative demoSkeleton demoWorld [7] 1 1).1.1 →
        v.joint ≠ none ∧ v.joint = demoNative.joint_list_get_joint [(0, 100), (5, 105)] k) ∧
      (TrackJoints skeltrackH demoNative demoSkeleton demoWorld [7] 1 1).1.1.keys.Nodup :=
  TrackJoints_success_mapping skeltrackH demoNative demoSkeleton demoWorld [7] 1 1
    [(0, 100), (5, 105)] (by decide) (by decide) (by decide)

/-- C3. Failing to find joints is never an error: when the guard passes and the native call sets
no error, TrackJoints returns a nil error whatever the joint list holds, and when the native
call returns a NULL joint list the mapping returned has no keys. -/
theorem TrackJoints_missing_joints_no_error {σ L : Type} (c : SkeltrackEnum) (N : Native σ L)
    (skeleton : Skeleton) (w : World σ) (depth : List Nat) (width height : Int)
    (hdim : (depth.length : Int) = mulInt width height)
    (herr : (N.track_joints_sync w.native skeleton.skeleton depth (guint width)
      (guint height)).2.1 = none) :
    (TrackJoints c N skeleton w depth width height).1.2 = none ∧
      ((N.track_joints_sync w.native skeleton.skeleton depth (guint width)
          (guint height)).2.2 = none →
        (TrackJoints c N skeleton w depth width height).1 = (JointMap.make, none) ∧
        (TrackJoints c N skeleton w depth width height).1.1.keys = []) := by
  unfold TrackJoints
  simp only [hdim, ne_eq, not_true_eq_false, if_false, herr]
  constructor
  · cases (N.track_joints_sync w.native skeleton.skeleton depth (guint width)
      (guint height)).2.2 <;> rfl
  · intro hl
    simp [hl, JointMap.make, JointMap.keys]

theorem TrackJoints_missing_joints_no_error_witness :
    (TrackJoints skeltrackH demoNative demoSkeleton demoWorld [] 0 5).1.2 = none ∧
      ((demoNative.track_joints_sync demoWorld.native demoSkeleton.skeleton [] (guint 0)
          (guint 5)).2.2 = none →
        (TrackJoints skeltrackH demoNative demoSkeleton demoWorld [] 0 5).1 =
          (JointMap.make, none) ∧
        (TrackJoints skeltrackH demoNative demoSkeleton demoWorld [] 0 5).1.1.keys = []) :=
  TrackJoints_missing_joints_no_error skeltrackH demoNative demoSkeleton demoWorld [] 0 5
    (by decide) (by decide)

/-- C4. A dimension mismatch leaves the tracker untouched: when the guard
`len(depth) != width*height` holds, TrackJoints returns before the native tracking call, so the
Skeleton (its handle), the native tracker state and the record of native calls after the call
equal those before it. -/
theorem TrackJoints_dimension_mismatch_frame {σ L : Type} (c : SkeltrackEnum) (N : Native σ L)
    (skeleton : Skeleton) (w : World σ) (depth : List Nat) (width height : Int)
    (h : (depth.length : Int) ≠ mulInt width height) :
    (TrackJoints c N skeleton w depth width height).2.1 = skeleton ∧
      (TrackJoints c N skeleton w depth width height).2.2 = w ∧
      (TrackJoints c N skeleton w depth width height).2.2.native = w.native ∧
      (TrackJoints c N skeleton w depth width height).2.2.calls = w.calls := by
  unfold TrackJoints
  simp [h]

theorem TrackJoints_dimension_mismatch_frame_witness :
    ((([1, 2, 3, 4, 5] : List Nat).length : Int) ≠ mulInt 2 3) ∧
      (TrackJoints skeltrackH demoNative demoSkeleton demoWorld [1, 2, 3, 4, 5] 2 3).2.1 =
        demoSkeleton ∧
      (TrackJoints skeltrackH demoNative demoSkeleton demoWorld [1, 2, 3, 4, 5] 2 3).2.2 =
        demoWorld ∧
      (TrackJoints skeltrackH demoNative demoSkeleton demoWorld [1, 2, 3, 4, 5] 2 3).2.2.native =
        demoWorld.native ∧
      (TrackJoints skeltrackH demoNative demoSkeleton demoWorld [1, 2, 3, 4, 5] 2 3).2.2.calls =
        demoWorld.calls :=
  ⟨by decide,
    TrackJoints_dimension_mismatch_frame skeltrackH demoNative demoSkeleton demoWorld
      [1, 2, 3, 4, 5] 2 3 (by decide)⟩

/-- C10, evaluated at the failing input: for a one-sample buffer and width = height = -1 the
guard passes (`(-1) * (-1) = 1`), no dimension-mismatch error is returned, and the native
tracker is called once with `guint` dimensions 4294967295 and 4294967295, whose product is not
the length of the buffer, while width and height are negative. -/
theorem TrackJoints_negative_dimensions_reach_native :
    (TrackJoints skeltrackH demoNative demoSkeleton demoWorld [1] (-1) (-1)).1.2 = none ∧
      (TrackJoints skeltrackH demoNative demoSkeleton demoWorld [1] (-1) (-1)).2.2.calls =
        [{ handle := some 7, buffer := [1], width := 4294967295, height := 4294967295 }] ∧
      guint (-1) * guint (-1) ≠ ([1] : List Nat).length ∧
      ¬ ((0 : Int) ≤ -1) := by
  decide

/-! ## Parameters -/

/-- C5 as stated fails: with a property store that rejects values outside [1, 1024],
`SetDimensionReduction(0)` ends normally, with nothing that reports a failure. -/
theorem SetDimensionReduction_zero_reports_nothing :
    (SetDimensionReduction rangedStore demoSkeleton 16 0).1 = Outcome.ok () ∧
      (SetDimensionReduction rangedStore demoSkeleton 16 0).1.isPanic = false := by
  decide

/-- C5, amended. SetDimensionReduction cannot fail and validates nothing. For every value it
ends normally, the native state afterwards is the one g_object_set yields for the name
"dimension-reduction" and the value `C.uint(value)`, which is value mod 2^32, and
DimensionReduction afterwards returns what g_object_get then reports for that name. Hence
whenever the native setter leaves the object as it was, DimensionReduction returns the value
it returned before. Against a property store that enforces [1, 1024] and holds `prev`, the
value afterwards is value mod 2^32 when that lies in [1, 1024] and `prev` otherwise: the
out-of-range value 0 keeps `prev`, the out-of-range value 4294967312 is stored as 16. -/
theorem SetDimensionReduction_forwards_unvalidated {σ : Type} (G : GObject σ)
    (skeleton : Skeleton) (st : σ) (value prev : Nat) :
    (SetDimensionReduction G skeleton st value).1 = Outcome.ok () ∧
      (SetDimensionReduction G skeleton st value).2 =
        G.g_object_set st skeleton.skeleton "dimension-reduction" (value % 4294967296) ∧
      DimensionReduction G skeleton (SetDimensionReduction G skeleton st value).2 =
        G.g_object_get
          (G.g_object_set st skeleton.skeleton "dimension-reduction" (value % 4294967296))
          skeleton.skeleton "dimension-reduction" 0 ∧
      (G.g_object_set st skeleton.skeleton "dimension-reduction" (value % 4294967296) = st →
        DimensionReduction G skeleton (SetDimensionReduction G skeleton st value).2 =
          DimensionReduction G skeleton st) ∧
      DimensionReduction rangedStore skeleton prev = prev ∧
      DimensionReduction rangedStore skeleton
          (SetDimensionReduction rangedStore skeleton prev value).2 =
        (if 1 ≤ value % 4294967296 ∧ value % 4294967296 ≤ 1024 then value % 4294967296
          else prev) ∧
      DimensionReduction rangedStore skeleton
          (SetDimensionReduction rangedStore skeleton prev 0).2 = prev ∧
      DimensionReduction rangedStore skeleton
          (SetDimensionReduction rangedStore skeleton prev 4294967312).2 = 16 := by
  have hranged : ∀ v : Nat, DimensionReduction rangedStore skeleton
      (SetDimensionReduction rangedStore skeleton prev v).2 =
        (if 1 ≤ v % 4294967296 ∧ v % 4294967296 ≤ 1024 then v % 4294967296 else prev) := by
    intro v
    simp [DimensionReduction, SetDimensionReduction, getObjParamUint, setObjParamUint,
      rangedStore, cuint]
  refine ⟨rfl, rfl, rfl, ?_, ?_, hranged value, ?_, ?_⟩
  · intro hkept
    show DimensionReduction G skeleton
      (G.g_object_set st skeleton.skeleton "dimension-reduction" (value % 4294967296)) = _
    rw [hkept]
  · simp [DimensionReduction, getObjParamUint, rangedStore]
  · rw [hranged 0, if_neg (by decide)]
  · rw [hranged 4294967312, if_pos (by decide)]

theorem SetDimensionReduction_forwards_unvalidated_witness :
    rangedStore.g_object_set 16 demoSkeleton.skeleton "dimension-reduction"
        (0 % 4294967296) = 16 ∧
      DimensionReduction rangedStore demoSkeleton
          (SetDimensionReduction rangedStore demoSkeleton 16 0).2 =
        DimensionReduction rangedStore demoSkeleton 16 :=
  ⟨by decide,
    (SetDimensionReduction_forwards_unvalidated rangedStore demoSkeleton 16 0 16).2.2.2.1
      (by decide)⟩

/-! ## Joint -/

/-- C8, evaluated at the failing input: after Free on a Joint whose pointer is the live address
100, the field `joint` is still that non-nil address, so Type, Coords and ScreenCoords pass
their nil check and read the released record instead of panicking. -/
theorem Joint_Free_leaves_dangling_pointer :
    (Joint.Free demoHeap { joint := some 100 }).1 = { joint := some 100 } ∧
      Joint.Type (Joint.Free demoHeap { joint := some 100 }).2
        (Joint.Free demoHeap { joint := some 100 }).1 = Outcome.danglingRead 100 ∧
      Joint.Coords (Joint.Free demoHeap { joint := some 100 }).2
        (Joint.Free demoHeap { joint := some 100 }).1 = Outcome.danglingRead 100 ∧
      Joint.ScreenCoords (Joint.Free demoHeap { joint := some 100 }).2
        (Joint.Free demoHeap { joint := some 100 }).1 = Outcome.danglingRead 100 ∧
      (Joint.Type (Joint.Free demoHeap { joint := some 100 }).2
        (Joint.Free demoHeap { joint := some 100 }).1).isPanic = false := by
  decide

/-! ## JointID.String -/

/-- C9. When the seven native ids are pairwise different, JointID.String maps the seven
constants to "head", "left shoulder", "right shoulder", "left elbow", "right elbow",
"left hand", "right hand" (seven pairwise different names), and for every JointID value the
result is "invalid" exactly when the value is none of the seven constants. -/
theorem JointID_String_spec (c : SkeltrackEnum) (hd : c.Distinct) :
    JointID.String c (JointHead c) = "head" ∧
      JointID.String c (JointLeftShoulder c) = "left shoulder" ∧
      JointID.String c (JointRightShoulder c) = "right shoulder" ∧
      JointID.String c (JointLeftElbow c) = "left elbow" ∧
      JointID.String c (JointRightElbow c) = "right elbow" ∧
      JointID.String c (JointLeftHand c) = "left hand" ∧
      JointID.String c (JointRightHand c) = "right hand" ∧
      ((jointIDs c).map (JointID.String c)).Nodup ∧
      ∀ j : JointID, JointID.String c j = "invalid" ↔ j ∉ jointIDs c := by
  have names : (["head", "left shoulder", "right shoulder", "left elbow", "right elbow",
      "left hand", "right hand"] : List String).Nodup := by decide
  unfold SkeltrackEnum.Distinct at hd
  simp only [List.nodup_cons, List.mem_cons, List.mem_singleton, not_or, List.not_mem_nil,
    not_false_eq_true, List.nodup_nil, and_true] at hd
  obtain ⟨⟨h12, h13, h14, h15, h16, h17⟩, ⟨h23, h24, h25, h26, h27⟩, ⟨h34, h35, h36, h37⟩,
    ⟨h45, h46, h47⟩, ⟨h56, h57⟩, h67⟩ := hd
  have e1 : JointID.String c (JointHead c) = "head" := by
    simp [JointID.String]
  have e2 : JointID.String c (JointLeftShoulder c) = "left shoulder" := by
    simp [JointID.String, JointHead, JointLeftShoulder, Ne.symm h12]
  have e3 : JointID.String c (JointRightShoulder c) = "right shoulder" := by
    simp [JointID.String, JointHead, JointLeftShoulder, JointRightShoulder, Ne.symm h13,
      Ne.symm h23]
  have e4 : JointID.String c (JointLeftElbow c) = "left elbow" := by
    simp [JointID.String, JointHead, JointLeftShoulder, JointRightShoulder, JointLeftElbow,
      Ne.symm h14, Ne.symm h24, Ne.symm h34]
  have e5 : JointID.String c (JointRightElbow c) = "right elbow" := by
    simp [JointID.String, JointHead, JointLeftShoulder, JointRightShoulder, JointLeftElbow,
      JointRightElbow, Ne.symm h15, Ne.symm h25, Ne.symm h35, Ne.symm h45]
  have e6 : JointID.String c (JointLeftHand c) = "left hand" := by
    simp [JointID.String, JointHead, JointLeftShoulder, JointRightShoulder, JointLeftElbow,
      JointRightElbow, JointLeftHand, Ne.symm h16, Ne.symm h26, Ne.symm h36, Ne.symm h46,
      Ne.symm h56]
  have e7 : JointID.String c (JointRightHand c) = "right hand" := by
    simp [JointID.String, JointHead, JointLeftShoulder, JointRightShoulder, JointLeftElbow,
      JointRightElbow, JointLeftHand, JointRightHand, Ne.symm h17, Ne.symm h27, Ne.symm h37,
      Ne.symm h47, Ne.symm h57, Ne.symm h67]
  refine ⟨e1, e2, e3, e4, e5, e6, e7, ?_, ?_⟩
  · simp only [jointIDs, List.map_cons, List.map_nil, e1, e2, e3, e4, e5, e6, e7]
    exact names
  · intro j
    unfold JointID.String jointIDs
    simp only [List.mem_cons, List.mem_singleton, List.not_mem_nil, or_false, not_or]
    split_ifs <;> simp_all

theorem JointID_String_spec_witness :
    skeltrackH.Distinct ∧
      JointID.String skeltrackH (JointHead skeltrackH) = "head" ∧
      JointID.String skeltrackH (JointLeftShoulder skeltrackH) = "left shoulder" ∧
      JointID.String skeltrackH (JointRightShoulder skeltrackH) = "right shoulder" ∧
      JointID.String skeltrackH (JointLeftElbow skeltrackH) = "left elbow" ∧
      JointID.String skeltrackH (JointRightElbow skeltrackH) = "right elbow" ∧
      JointID.String skeltrackH (JointLeftHand skeltrackH) = "left hand" ∧
      JointID.String skeltrackH (JointRightHand skeltrackH) = "right hand" ∧
      ((jointIDs skeltrackH).map (JointID.String skeltrackH)).Nodup ∧
      ∀ j : JointID, JointID.String skeltrackH j = "invalid" ↔ j ∉ jointIDs skeltrackH :=
  ⟨by decide, JointID_String_spec skeltrackH (by decide)⟩

theorem wrapInt_natCast {n : Nat} (h : n < 9223372036854775808) : wrapInt (n : Int) = n := by
  apply wrapInt_of_inInt
  unfold inInt
  omega

theorem remInt_natCast (W R : Nat) (hR : 1 ≤ R) :
    remInt (W : Int) (R : Int) = .ok ((W % R : Nat) : Int) := by
  unfold remInt
  have : (R : Int) ≠ 0 := by omega
  rw [if_neg this, Int.ofNat_tmod]

theorem divInt_natCast (A R : Nat) (hR : 1 ≤ R) (hA : A < 9223372036854775808) :
    divInt (A : Int) (R : Int) = .ok ((A / R : Nat) : Int) := by
  unfold divInt
  have : (R : Int) ≠ 0 := by omega
  rw [if_neg this, ← Int.ofNat_tdiv]
  have hle : A / R ≤ A := Nat.div_le_self A R
  rw [wrapInt_natCast (by omega)]

theorem subInt_natCast (A B : Nat) (hB : B ≤ A) (hA : A < 9223372036854775808) :
    subInt (A : Int) (B : Int) = ((A - B : Nat) : Int) := by
  unfold subInt
  rw [← Int.ofNat_sub hB, wrapInt_natCast (by omega)]

theorem mulInt_natCast (A B : Nat) (h : A * B < 9223372036854775808) :
    mulInt (A : Int) (B : Int) = ((A * B : Nat) : Int) := by
  unfold mulInt
  rw [← Int.ofNat_mul, wrapInt_natCast h]

theorem addInt_natCast (A B : Nat) (h : A + B < 9223372036854775808) :
    addInt (A : Int) (B : Int) = ((A + B : Nat) : Int) := by
  unfold addInt
  rw [← Int.ofNat_add, wrapInt_natCast h]

theorem sub_mod_div (W R : Nat) (hR : 1 ≤ R) : (W - W % R) / R = W / R := by
  have h := Nat.div_add_mod W R
  have : W - W % R = R * (W / R) := by omega
  rw [this, Nat.mul_div_cancel_left _ (by omega)]

/-- The sampled index of cell `(x, y)` lies below `W * H`. -/
theorem sample_index_lt (W H R x y : Nat) (hR : 1 ≤ R) (hx : x < W / R) (hy : y < H / R) :
    y * W * R + x * R < W * H := by
  have h1 : (x + 1) * R ≤ W := (Nat.le_div_iff_mul_le (by omega)).mp hx
  have h2 : (y + 1) * R ≤ H := (Nat.le_div_iff_mul_le (by omega)).mp hy
  have h3 : x * R + 1 ≤ W := by
    have : x * R + R = (x + 1) * R := by ring
    omega
  have h4 : y * R + 1 ≤ H := by
    have : y * R + R = (y + 1) * R := by ring
    omega
  have h5 : (y * R + 1) * W ≤ H * W := Nat.mul_le_mul_right W h4
  have h6 : (y * R + 1) * W = y * W * R + W := by ring
  have h7 : H * W = W * H := Nat.mul_comm H W
  omega

/-- The written index of cell `(x, y)` lies below the size of the reduced grid. -/
theorem cell_index_lt (sw sh x y : Nat) (hx : x < sw) (hy : y < sh) : y * sw + x < sw * sh := by
  have h1 : (y + 1) * sw ≤ sh * sw := Nat.mul_le_mul_right sw hy
  have h2 : (y + 1) * sw = y * sw + sw := by ring
  have h3 : sh * sw = sw * sh := Nat.mul_comm sh sw
  omega

theorem div_mul_div_le (W H R : Nat) : W / R * (H / R) ≤ W * H :=
  Nat.mul_le_mul (Nat.div_le_self W R) (Nat.div_le_self H R)

@[simp] theorem Outcome.bind_ok {α β : Type} (v : α) (f : α → Outcome β) :
    (Outcome.ok v).bind f = f v := rfl

@[simp] theorem Outcome.bind_panic {α β : Type} (msg : String) (f : α → Outcome β) :
    (Outcome.panic msg : Outcome α).bind f = Outcome.panic msg := rfl

theorem scaleDepth_eq_loops (data : List Nat) (W H R : Nat) (hR : 1 ≤ R)
    (hW : W < 9223372036854775808) (hH : H < 9223372036854775808)
    (hWH : W * H < 9223372036854775808) :
    scaleDepth data (W : Int) (H : Int) (R : Int) =
      loopFrom (fun x s => loopFrom (fun y s1 =>
          scaleCell data (W : Int) (R : Int) ((W / R : Nat) : Int) x y s1) (H / R) 0 s)
        (W / R) 0 (List.replicate (W / R * (H / R)) 0) := by
  unfold scaleDepth
  have hmw : W % R ≤ W := Nat.mod_le W R
  have hmh : H % R ≤ H := Nat.mod_le H R
  have hd := div_mul_div_le W H R
  have h1 : W - W % R < 9223372036854775808 := by omega
  have h2 : H - H % R < 9223372036854775808 := by omega
  have h3 : W / R * (H / R) < 9223372036854775808 := lt_of_le_of_lt hd hWH
  rw [remInt_natCast _ _ hR, Outcome.bind_ok, subInt_natCast _ _ hmw hW,
    divInt_natCast _ _ hR h1, Outcome.bind_ok, remInt_natCast _ _ hR, Outcome.bind_ok,
    subInt_natCast _ _ hmh hH, divInt_natCast _ _ hR h2, Outcome.bind_ok,
    sub_mod_div _ _ hR, sub_mod_div _ _ hR, mulInt_natCast _ _ h3]
  have h4 : ¬ (((W / R * (H / R) : Nat) : Int) < 0) := by
    have := Int.natCast_nonneg (W / R * (H / R))
    omega
  rw [makeSlice, if_neg h4, Outcome.bind_ok]
  simp only [forLoop, Int.toNat_ofNat]

/-! ## Loops -/

/-- An invariant carried through a loop whose iterations all end with a value. -/
theorem loopFrom_ok {β : Type} (body : Nat → β → Outcome β) (P : Nat → β → Prop) :
    ∀ (n i : Nat) (s : β), P i s →
      (∀ j t, i ≤ j → j < i + n → P j t → ∃ t1, body j t = .ok t1 ∧ P (j + 1) t1) →
      ∃ t, loopFrom body n i s = .ok t ∧ P (i + n) t := by
  intro n
  induction n with
  | zero =>
    intro i s h0 _
    exact ⟨s, rfl, h0⟩
  | succ n ih =>
    intro i s h0 hstep
    obtain ⟨t1, hb, hp⟩ := hstep i s (le_refl i) (by omega) h0
    obtain ⟨t, ht, hpt⟩ := ih (i + 1) t1 hp (fun j t hj hlt hP =>
      hstep j t (by omega) (by omega) hP)
    refine ⟨t, ?_, ?_⟩
    · simp only [loopFrom, hb, Outcome.bind_ok]
      exact ht
    · have e : i + (n + 1) = i + 1 + n := by omega
      rw [e]
      exact hpt

/-- A loop that ends with a value has run each of its iterations to a value. -/
theorem loopFrom_ok_body {β : Type} (body : Nat → β → Outcome β) :
    ∀ (n i : Nat) (s t : β), loopFrom body n i s = .ok t →
      ∀ j, i ≤ j → j < i + n → ∃ a b, body j a = .ok b := by
  intro n
  induction n with
  | zero =>
    intro i s t _ j h1 h2
    omega
  | succ n ih =>
    intro i s t h j h1 h2
    simp only [loopFrom] at h
    cases hb : body i s with
    | ok s1 =>
      rw [hb, Outcome.bind_ok] at h
      by_cases hj : j = i
      · subst hj
        exact ⟨s, s1, hb⟩
      · exact ih (i + 1) s1 t h j (by omega) (by omega)
    | panic msg =>
      rw [hb] at h
      simp [Outcome.bind] at h
    | danglingRead a =>
      rw [hb] at h
      simp [Outcome.bind] at h

/-- A loop whose iterations end with a value or with one given panic ends so itself. -/
theorem loopFrom_ok_or_panic {β : Type} (body : Nat → β → Outcome β) (msg : String)
    (hb : ∀ j a, (∃ b, body j a = .ok b) ∨ body j a = .panic msg) :
    ∀ (n i : Nat) (s : β), (∃ t, loopFrom body n i s = .ok t) ∨
      loopFrom body n i s = .panic msg := by
  intro n
  induction n with
  | zero =>
    intro i s
    exact Or.inl ⟨s, rfl⟩
  | succ n ih =>
    intro i s
    rcases hb i s with ⟨b, h⟩ | h
    · simp only [loopFrom, h, Outcome.bind_ok]
      exact ih (i + 1) b
    · right
      simp only [loopFrom, h, Outcome.bind_panic]

/-! ## scaleDepth: one cell -/

theorem readAt_natCast (s : List Nat) (i : Nat) :
    readAt s (i : Int) = if i < s.length then .ok (s.getD i 0) else .panic "index out of range" := by
  unfold readAt
  by_cases h : i < s.length
  · have : (0 : Int) ≤ (i : Int) ∧ (i : Int) < (s.length : Int) := ⟨by omega, by omega⟩
    simp [h, this]
  · have : ¬ ((0 : Int) ≤ (i : Int) ∧ (i : Int) < (s.length : Int)) := by omega
    simp [h, this]

theorem writeAt_natCast (s : List Nat) (i v : Nat) :
    writeAt s (i : Int) v = if i < s.length then .ok (s.set i v)
      else .panic "index out of range" := by
  unfold writeAt
  by_cases h : i < s.length
  · have : (0 : Int) ≤ (i : Int) ∧ (i : Int) < (s.length : Int) := ⟨by omega, by omega⟩
    simp [h, this]
  · have : ¬ ((0 : Int) ≤ (i : Int) ∧ (i : Int) < (s.length : Int)) := by omega
    simp [h, this]

/-- The body of the inner loop, when nothing overflows: one read of the sampled index and one
write of the thresholded sample. -/
theorem scaleCell_eq (data : List Nat) (W H R x y : Nat) (hR : 1 ≤ R)
    (hWH : W * H < 9223372036854775808) (hx : x < W / R) (hy : y < H / R) (s : List Nat) :
    scaleCell data (W : Int) (R : Int) ((W / R : Nat) : Int) x y s =
      (readAt data ((y * W * R + x * R : Nat) : Int)).bind fun value =>
        writeAt s ((y * (W / R) + x : Nat) : Int) (threshold value) := by
  have h1 := sample_index_lt W H R x y hR hx hy
  have h2 := cell_index_lt (W / R) (H / R) x y hx hy
  have h3 := div_mul_div_le W H R
  have h4 : y * W ≤ y * W * R := Nat.le_mul_of_pos_right _ (by omega)
  unfold scaleCell
  simp only []
  rw [mulInt_natCast y W (by omega), mulInt_natCast (y * W) R (by omega),
    mulInt_natCast x R (by omega), addInt_natCast _ _ (by omega),
    mulInt_natCast y (W / R) (by omega), addInt_natCast _ _ (by omega)]
  congr 1
  funext value
  unfold threshold ThresholdBegin ThresholdEnd
  by_cases hv : value < 50 ∨ value > 1500
  · have : ¬ (50 ≤ value ∧ value ≤ 1500) := by omega
    simp only [hv, this, if_true, if_false]
  · have : 50 ≤ value ∧ value ≤ 1500 := by omega
    simp only [hv, this, if_true, if_false, and_self]

/-- Two cells of the reduced grid with the same index are the same cell. -/
theorem cell_index_inj (sw x y x1 y1 : Nat) (hx : x < sw) (hx1 : x1 < sw)
    (h : y * sw + x = y1 * sw + x1) : x = x1 ∧ y = y1 := by
  have hm : (y * sw + x) % sw = (y1 * sw + x1) % sw := by rw [h]
  have e1 : (y * sw + x) % sw = x := by
    rw [Nat.add_comm, Nat.add_mul_mod_self_right, Nat.mod_eq_of_lt hx]
  have e2 : (y1 * sw + x1) % sw = x1 := by
    rw [Nat.add_comm, Nat.add_mul_mod_self_right, Nat.mod_eq_of_lt hx1]
  have hxx : x = x1 := by rw [e1, e2] at hm; exact hm
  subst hxx
  have hy : y * sw = y1 * sw := by omega
  have hpos : 0 < sw := by omega
  exact ⟨rfl, Nat.eq_of_mul_eq_mul_right hpos hy⟩

/-- One iteration of the inner loop whose read is in range fills its cell. -/
theorem scaleCell_step (data : List Nat) (W H R x y : Nat) (hR : 1 ≤ R)
    (hWH : W * H < 9223372036854775808) (hx : x < W / R) (hy : y < H / R) (s : List Nat)
    (hidx : y * W * R + x * R < data.length)
    (hs : Filled data W R (W / R) (H / R) x y s) :
    ∃ t, scaleCell data (W : Int) (R : Int) ((W / R : Nat) : Int) x y s = .ok t ∧
      Filled data W R (W / R) (H / R) x (y + 1) t := by
  obtain ⟨hlen, hcells⟩ := hs
  have hc := cell_index_lt (W / R) (H / R) x y hx hy
  refine ⟨s.set (y * (W / R) + x) (threshold (data.getD (y * W * R + x * R) 0)), ?_, ?_, ?_⟩
  · rw [scaleCell_eq data W H R x y hR hWH hx hy s, readAt_natCast, if_pos hidx,
      Outcome.bind_ok, writeAt_natCast, if_pos (by omega)]
  · rw [List.length_set]
    exact hlen
  · intro x1 y1 hx1 hy1 hdone
    rw [List.getElem?_set]
    by_cases he : y * (W / R) + x = y1 * (W / R) + x1
    · obtain ⟨e1, e2⟩ := cell_index_inj (W / R) x y x1 y1 hx hx1 he
      subst e1
      subst e2
      simp only [if_true]
      rw [if_pos (by omega)]
    · rw [if_neg he]
      apply hcells x1 y1 hx1 hy1
      rcases hdone with h | ⟨h1, h2⟩
      · exact Or.inl h
      · right
        refine ⟨h1, ?_⟩
        have : y1 ≠ y := by
          intro hyy
          apply he
          rw [h1, hyy]
        omega

/-- The inner loop over a column all of whose reads are in range fills the column. -/
theorem inner_loop_fills (data : List Nat) (W H R x : Nat) (hR : 1 ≤ R)
    (hWH : W * H < 9223372036854775808) (hx : x < W / R) (s : List Nat)
    (hidx : ∀ y, y < H / R → y * W * R + x * R < data.length)
    (hs : Filled data W R (W / R) (H / R) x 0 s) :
    ∃ t, loopFrom (fun y s1 => scaleCell data (W : Int) (R : Int) ((W / R : Nat) : Int) x y s1)
        (H / R) 0 s = .ok t ∧ Filled data W R (W / R) (H / R) (x + 1) 0 t := by
  obtain ⟨t, ht, hf⟩ := loopFrom_ok
    (fun y s1 => scaleCell data (W : Int) (R : Int) ((W / R : Nat) : Int) x y s1)
    (fun y s1 => Filled data W R (W / R) (H / R) x y s1) (H / R) 0 s hs
    (fun y s1 _ hy hP =>
      scaleCell_step data W H R x y hR hWH hx (by omega) s1 (hidx y (by omega)) hP)
  refine ⟨t, ht, hf.1, ?_⟩
  intro x1 y1 hx1 hy1 hdone
  apply hf.2 x1 y1 hx1 hy1
  rcases hdone with h | ⟨_, h2⟩
  · by_cases hxx : x1 = x
    · exact Or.inr ⟨hxx, by omega⟩
    · exact Or.inl (by omega)
  · omega

/-- When every sampled index is inside the buffer and nothing overflows, scaleDepth returns the
reduced grid: its size is the product of the quotients and each cell holds the thresholded
top-left sample of its block. -/
theorem scaleDepth_fills (data : List Nat) (W H R : Nat) (hR : 1 ≤ R)
    (hW : W < 9223372036854775808) (hH : H < 9223372036854775808)
    (hWH : W * H < 9223372036854775808)
    (hidx : ∀ x y, x < W / R → y < H / R → y * W * R + x * R < data.length) :
    ∃ out, scaleDepth data (W : Int) (H : Int) (R : Int) = .ok out ∧
      out.length = W / R * (H / R) ∧
      ∀ x y, x < W / R → y < H / R →
        out[y * (W / R) + x]? = some (threshold (data.getD (y * W * R + x * R) 0)) := by
  rw [scaleDepth_eq_loops data W H R hR hW hH hWH]
  have h0 : Filled data W R (W / R) (H / R) 0 0 (List.replicate (W / R * (H / R)) 0) := by
    refine ⟨List.length_replicate _ _, ?_⟩
    intro x1 y1 _ _ hdone
    omega
  obtain ⟨t, ht, hf⟩ := loopFrom_ok
    (fun x s => loopFrom (fun y s1 =>
      scaleCell data (W : Int) (R : Int) ((W / R : Nat) : Int) x y s1) (H / R) 0 s)
    (fun x s => Filled data W R (W / R) (H / R) x 0 s) (W / R) 0 _ h0
    (fun x s _ hx hP =>
      inner_loop_fills data W H R x hR hWH (by omega) s (fun y hy => hidx x y (by omega) hy) hP)
  refine ⟨t, ht, hf.1, ?_⟩
  intro x y hx hy
  exact hf.2 x y hx hy (Or.inl (by omega))

/-- A slice write either ends with a value or with the index panic. -/
theorem writeAt_ok_or_panic (s : List Nat) (i : Int) (v : Nat) :
    (∃ t, writeAt s i v = .ok t) ∨ writeAt s i v = .panic "index out of range" := by
  unfold writeAt
  by_cases h : 0 ≤ i ∧ i < s.length
  · rw [if_pos h]
    exact Or.inl ⟨_, rfl⟩
  · rw [if_neg h]
    exact Or.inr rfl

/-- A cell either ends with a value or with the index panic of a slice access. -/
theorem scaleCell_ok_or_panic (data : List Nat) (width scaledValue scaledWidth : Int)
    (x y : Nat) (s : List Nat) :
    (∃ t, scaleCell data width scaledValue scaledWidth x y s = .ok t) ∨
      scaleCell data width scaledValue scaledWidth x y s = .panic "index out of range" := by
  unfold scaleCell readAt
  simp only []
  by_cases h : 0 ≤ addInt (mulInt (mulInt y width) scaledValue) (mulInt x scaledValue) ∧
      addInt (mulInt (mulInt y width) scaledValue) (mulInt x scaledValue) < data.length
  · rw [if_pos h, Outcome.bind_ok]
    split_ifs
    · exact writeAt_ok_or_panic _ _ _
    · exact writeAt_ok_or_panic _ _ _
  · rw [if_neg h, Outcome.bind_panic]
    exact Or.inr rfl

/-- When nothing overflows, scaleDepth either returns a grid or stops with the index panic. -/
theorem scaleDepth_ok_or_panic (data : List Nat) (W H R : Nat) (hR : 1 ≤ R)
    (hW : W < 9223372036854775808) (hH : H < 9223372036854775808)
    (hWH : W * H < 9223372036854775808) :
    (∃ out, scaleDepth data (W : Int) (H : Int) (R : Int) = .ok out) ∨
      scaleDepth data (W : Int) (H : Int) (R : Int) = .panic "index out of range" := by
  rw [scaleDepth_eq_loops data W H R hR hW hH hWH]
  apply loopFrom_ok_or_panic
  intro x s
  apply loopFrom_ok_or_panic
  intro y s1
  exact scaleCell_ok_or_panic data _ _ _ x y s1

/-- When nothing overflows and scaleDepth returns, every sampled index was inside the buffer. -/
theorem scaleDepth_ok_reads (data : List Nat) (W H R : Nat) (hR : 1 ≤ R)
    (hW : W < 9223372036854775808) (hH : H < 9223372036854775808)
    (hWH : W * H < 9223372036854775808) (out : List Nat)
    (h : scaleDepth data (W : Int) (H : Int) (R : Int) = .ok out) :
    ∀ x y, x < W / R → y < H / R → y * W * R + x * R < data.length := by
  intro x y hx hy
  rw [scaleDepth_eq_loops data W H R hR hW hH hWH] at h
  obtain ⟨a, b, hab⟩ := loopFrom_ok_body _ _ _ _ _ h x (Nat.zero_le x) (by omega)
  obtain ⟨a1, b1, hab1⟩ := loopFrom_ok_body _ _ _ _ _ hab y (Nat.zero_le y) (by omega)
  rw [scaleCell_eq data W H R x y hR hWH hx hy a1, readAt_natCast] at hab1
  by_contra hlt
  rw [if_neg hlt, Outcome.bind_panic] at hab1
  cases hab1

/-! ## scaleDepth -/

/-- C6. For width >= 0, height >= 0 and a reduction factor r >= 1 (Go ints), and a buffer with
len(data) = width*height, scaleDepth returns a buffer of length floor(width/r) *
floor(height/r) in which, for every x < floor(width/r) and y < floor(height/r), cell
y*floor(width/r) + x is the top-left sample data[(y*r)*width + x*r] of its block when that
sample lies in [ThresholdBegin, ThresholdEnd] = [50, 1500], and 0 otherwise. -/
theorem scaleDepth_spec (data : List Nat) (width height r : Int)
    (hw : 0 ≤ width) (hh : 0 ≤ height) (hr : 1 ≤ r)
    (hwi : inInt width) (hhi : inInt height) (hri : inInt r)
    (hfit : inInt (data.length : Int))
    (hlen : (data.length : Int) = width * height) :
    ∃ out, scaleDepth data width height r = .ok out ∧
      (out.length : Int) = (width / r) * (height / r) ∧
      ∀ x y : Nat, (x : Int) < width / r → (y : Int) < height / r →
        ∃ v, data[(y * r.toNat) * width.toNat + x * r.toNat]? = some v ∧
          out[y * (width / r).toNat + x]? =
            some (if ThresholdBegin ≤ v ∧ v ≤ ThresholdEnd then v else 0) := by
  lift width to ℕ using hw with W
  lift height to ℕ using hh with H
  lift r to ℕ using (by omega : 0 ≤ r) with R
  unfold inInt at hwi hhi hri hfit
  have hR : 1 ≤ R := by omega
  have hWH : W * H = data.length := by
    have : ((W * H : Nat) : Int) = (data.length : Int) := by push_cast; exact hlen.symm
    exact_mod_cast this
  have hidx : ∀ x y, x < W / R → y < H / R → y * W * R + x * R < data.length := by
    intro x y hx hy
    rw [← hWH]
    exact sample_index_lt W H R x y hR hx hy
  obtain ⟨out, ho, hl, hc⟩ := scaleDepth_fills data W H R hR (by omega) (by omega) (by omega) hidx
  refine ⟨out, ho, ?_, ?_⟩
  · rw [hl]
    push_cast
    rfl
  · intro x y hx hy
    have hx1 : x < W / R := by exact_mod_cast hx
    have hy1 : y < H / R := by exact_mod_cast hy
    have hi := hidx x y hx1 hy1
    have e1 : ((W : Int) / (R : Int)).toNat = W / R := by
      rw [← Int.natCast_div, Int.toNat_natCast]
    have e2 : y * (R : Int).toNat * (W : Int).toNat + x * (R : Int).toNat =
        y * W * R + x * R := by
      simp only [Int.toNat_natCast]
      ring
    rw [e1, e2]
    refine ⟨data[y * W * R + x * R], List.getElem?_eq_getElem hi, ?_⟩
    rw [hc x y hx1 hy1]
    have e3 : data.getD (y * W * R + x * R) 0 = data[y * W * R + x * R] := by
      rw [List.getD_eq_getElem?_getD, List.getElem?_eq_getElem hi]
      rfl
    rw [e3]
    rfl

theorem scaleDepth_spec_witness :
    ∃ out, scaleDepth [100, 10, 2000, 1500, 50, 7, 8, 9] 4 2 2 = .ok out ∧
      (out.length : Int) = ((4 : Int) / 2) * ((2 : Int) / 2) ∧
      ∀ x y : Nat, (x : Int) < (4 : Int) / 2 → (y : Int) < (2 : Int) / 2 →
        ∃ v, ([100, 10, 2000, 1500, 50, 7, 8, 9] : List Nat)[(y * (2 : Int).toNat) *
            (4 : Int).toNat + x * (2 : Int).toNat]? = some v ∧
          out[y * ((4 : Int) / 2).toNat + x]? =
            some (if ThresholdBegin ≤ v ∧ v ≤ ThresholdEnd then v else 0) :=
  scaleDepth_spec [100, 10, 2000, 1500, 50, 7, 8, 9] 4 2 2 (by decide) (by decide) (by decide)
    (by decide) (by decide) (by decide) (by decide) (by decide)

/-- C7 as stated fails: for a buffer of five samples and width = height = 2, r = 1, the length
is not width*height, yet scaleDepth returns a reduced grid and no error. -/
theorem scaleDepth_longer_buffer_returns_grid :
    (([100, 100, 100, 100, 100] : List Nat).length : Int) ≠ 2 * 2 ∧
      scaleDepth [100, 100, 100, 100, 100] 2 2 1 = Outcome.ok [100, 100, 100, 100] := by
  decide

/-- C7, amended. scaleDepth has no dimension check and no InvalidDimensions error. For
width >= 0, height >= 0, r >= 1 (Go ints whose product width*height fits an int) and a
buffer at least as long as the reduced grid, floor(width/r)*floor(height/r) <= len(data):
when every sampled index y*width*r + x*r (x < floor(width/r), y < floor(height/r)) is inside
the buffer, scaleDepth returns the reduced grid, of length floor(width/r)*floor(height/r),
whose cell y*floor(width/r) + x is the sample data[(y*r)*width + x*r] when that lies in
[50, 1500] and 0 otherwise; when some sampled index is outside the buffer, it stops with the
Go run-time panic "index out of range"; and every sampled index is inside the buffer whenever
len(data) >= width*height, whether or not len(data) = width*height. -/
theorem scaleDepth_returns_iff_reads_in_range (data : List Nat) (width height r : Int)
    (hw : 0 ≤ width) (hh : 0 ≤ height) (hr : 1 ≤ r)
    (hwi : inInt width) (hhi : inInt height) (hri : inInt r)
    (hprod : inInt (width * height))
    (hres : (width / r) * (height / r) ≤ data.length) :
    ((∀ x y : Nat, (x : Int) < width / r → (y : Int) < height / r →
          (y : Int) * width * r + x * r < data.length) →
        ∃ out, scaleDepth data width height r = .ok out ∧
          (out.length : Int) = (width / r) * (height / r) ∧
          out.length ≤ data.length ∧
          ∀ x y : Nat, (x : Int) < width / r → (y : Int) < height / r →
            ∃ v, data[(y * r.toNat) * width.toNat + x * r.toNat]? = some v ∧
              out[y * (width / r).toNat + x]? =
                some (if ThresholdBegin ≤ v ∧ v ≤ ThresholdEnd then v else 0)) ∧
      (¬ (∀ x y : Nat, (x : Int) < width / r → (y : Int) < height / r →
          (y : Int) * width * r + x * r < data.length) →
        scaleDepth data width height r = .panic "index out of range") ∧
      (width * height ≤ data.length →
        ∀ x y : Nat, (x : Int) < width / r → (y : Int) < height / r →
          (y : Int) * width * r + x * r < data.length) := by
  lift width to ℕ using hw with W
  lift height to ℕ using hh with H
  lift r to ℕ using (by omega : 0 ≤ r) with R
  unfold inInt at hwi hhi hri hprod
  have hR : 1 ≤ R := by omega
  have hW : W < 9223372036854775808 := by omega
  have hH : H < 9223372036854775808 := by omega
  have hWH : W * H < 9223372036854775808 := by
    have : ((W * H : Nat) : Int) < 9223372036854775808 := by push_cast; exact hprod.2
    exact_mod_cast this
  have hresN : W / R * (H / R) ≤ data.length := by
    have : ((W / R * (H / R) : Nat) : Int) ≤ (data.length : Int) := by push_cast; exact hres
    exact_mod_cast this
  have hcast : (∀ x y : Nat, (x : Int) < (W : Int) / (R : Int) → (y : Int) < (H : Int) / (R : Int) →
      (y : Int) * (W : Int) * (R : Int) + x * (R : Int) < data.length) ↔
      ∀ x y, x < W / R → y < H / R → y * W * R + x * R < data.length := by
    constructor
    · intro h x y hx hy
      have := h x y (by exact_mod_cast hx) (by exact_mod_cast hy)
      exact_mod_cast this
    · intro h x y hx hy
      have := h x y (by exact_mod_cast hx) (by exact_mod_cast hy)
      exact_mod_cast this
  refine ⟨?_, ?_, ?_⟩
  · intro hall
    have hidx := hcast.mp hall
    obtain ⟨out, ho, hl, hc⟩ := scaleDepth_fills data W H R hR hW hH hWH hidx
    refine ⟨out, ho, ?_, ?_, ?_⟩
    · rw [hl]
      push_cast
      rfl
    · rw [hl]
      exact hresN
    · intro x y hx hy
      have hx1 : x < W / R := by exact_mod_cast hx
      have hy1 : y < H / R := by exact_mod_cast hy
      have hi := hidx x y hx1 hy1
      have e1 : ((W : Int) / (R : Int)).toNat = W / R := by
        rw [← Int.natCast_div, Int.toNat_natCast]
      have e2 : y * (R : Int).toNat * (W : Int).toNat + x * (R : Int).toNat =
          y * W * R + x * R := by
        simp only [Int.toNat_natCast]
        ring
      rw [e1, e2]
      refine ⟨data[y * W * R + x * R], List.getElem?_eq_getElem hi, ?_⟩
      rw [hc x y hx1 hy1]
      have e3 : data.getD (y * W * R + x * R) 0 = data[y * W * R + x * R] := by
        rw [List.getD_eq_getElem?_getD, List.getElem?_eq_getElem hi]
        rfl
      rw [e3]
      rfl
  · intro hnot
    rcases scaleDepth_ok_or_panic data W H R hR hW hH hWH with ⟨out, ho⟩ | hp
    · exact absurd (hcast.mpr (scaleDepth_ok_reads data W H R hR hW hH hWH out ho)) hnot
    · exact hp
  · intro hle
    apply hcast.mpr
    intro x y hx hy
    have h1 := sample_index_lt W H R x y hR hx hy
    have h2 : W * H ≤ data.length := by exact_mod_cast hle
    omega

theorem scaleDepth_returns_iff_reads_in_range_witness :
    ((∀ x y : Nat, (x : Int) < (2 : Int) / 2 → (y : Int) < (2 : Int) / 2 →
          (y : Int) * 2 * 2 + x * 2 < ([100, 200, 300] : List Nat).length) →
        ∃ out, scaleDepth [100, 200, 300] 2 2 2 = .ok out ∧
          (out.length : Int) = ((2 : Int) / 2) * ((2 : Int) / 2) ∧
          out.length ≤ ([100, 200, 300] : List Nat).length ∧
          ∀ x y : Nat, (x : Int) < (2 : Int) / 2 → (y : Int) < (2 : Int) / 2 →
            ∃ v, ([100, 200, 300] : List Nat)[(y * (2 : Int).toNat) * (2 : Int).toNat +
                x * (2 : Int).toNat]? = some v ∧
              out[y * ((2 : Int) / 2).toNat + x]? =
                some (if ThresholdBegin ≤ v ∧ v ≤ ThresholdEnd then v else 0)) ∧
      (¬ (∀ x y : Nat, (x : Int) < (2 : Int) / 2 → (y : Int) < (2 : Int) / 2 →
          (y : Int) * 2 * 2 + x * 2 < ([100, 200, 300] : List Nat).length) →
        scaleDepth [100, 200, 300] 2 2 2 = .panic "index out of range") ∧
      ((2 : Int) * 2 ≤ ([100, 200, 300] : List Nat).length →
        ∀ x y : Nat, (x : Int) < (2 : Int) / 2 → (y : Int) < (2 : Int) / 2 →
          (y : Int) * 2 * 2 + x * 2 < ([100, 200, 300] : List Nat).length) :=
  scaleDepth_returns_iff_reads_in_range [100, 200, 300] 2 2 2 (by decide) (by decide)
    (by decide) (by decide) (by decide) (by decide) (by decide) (by decide)

/-! ## scaleDepth: index safety -/

/-- A reduction factor of zero stops scaleDepth at its first statement, `width % scaledValue`. -/
theorem scaleDepth_zero_factor (data : List Nat) (width height : Int) :
    scaleDepth data width height 0 = .panic "integer divide by zero" := by
  unfold scaleDepth remInt
  rw [if_pos rfl, Outcome.bind_panic]

theorem divInt_neg_natCast (A R : Nat) (hR : 1 ≤ R) (hA : A < 9223372036854775808) :
    divInt (A : Int) (-(R : Int)) = .ok (-((A / R : Nat) : Int)) := by
  unfold divInt
  have : -(R : Int) ≠ 0 := by omega
  rw [if_neg this, Int.tdiv_neg, ← Int.ofNat_tdiv]
  have hle : A / R ≤ A := Nat.div_le_self A R
  have h0 : (0 : Int) ≤ ((A / R : Nat) : Int) := Int.natCast_nonneg _
  have h1 : ((A / R : Nat) : Int) ≤ (A : Int) := by exact_mod_cast hle
  rw [wrapInt_of_inInt]
  unfold inInt
  omega

/-- With a negative reduction factor both reduced dimensions are at most zero, neither loop
runs, and scaleDepth returns the freshly made buffer. -/
theorem scaleDepth_neg_factor (data : List Nat) (W H R : Nat) (hR : 1 ≤ R)
    (hW : W < 9223372036854775808) (hH : H < 9223372036854775808)
    (hWH : W * H < 9223372036854775808) :
    scaleDepth data (W : Int) (H : Int) (-(R : Int)) =
      .ok (List.replicate (W / R * (H / R)) 0) := by
  unfold scaleDepth
  have hmw : W % R ≤ W := Nat.mod_le W R
  have hmh : H % R ≤ H := Nat.mod_le H R
  have hd := div_mul_div_le W H R
  have h1 : W - W % R < 9223372036854775808 := by omega
  have h2 : H - H % R < 9223372036854775808 := by omega
  have h3 : W / R * (H / R) < 9223372036854775808 := lt_of_le_of_lt hd hWH
  have hn : -(R : Int) ≠ 0 := by omega
  have hrem : ∀ A : Nat, remInt (A : Int) (-(R : Int)) = .ok ((A % R : Nat) : Int) := by
    intro A
    unfold remInt
    rw [if_neg hn, Int.tmod_neg, Int.ofNat_tmod]
  rw [hrem, Outcome.bind_ok, subInt_natCast _ _ hmw hW,
    divInt_neg_natCast _ _ hR h1, Outcome.bind_ok, hrem, Outcome.bind_ok,
    subInt_natCast _ _ hmh hH, divInt_neg_natCast _ _ hR h2, Outcome.bind_ok,
    sub_mod_div _ _ hR, sub_mod_div _ _ hR]
  have hm : mulInt (-((W / R : Nat) : Int)) (-((H / R : Nat) : Int)) =
      ((W / R * (H / R) : Nat) : Int) := by
    rw [← mulInt_natCast _ _ h3]
    unfold mulInt
    rw [neg_mul_neg]
  rw [hm]
  have h4 : ¬ (((W / R * (H / R) : Nat) : Int) < 0) := by
    have := Int.natCast_nonneg (W / R * (H / R))
    omega
  rw [makeSlice, if_neg h4, Outcome.bind_ok]
  simp only [forLoop, Int.toNat_neg_nat, Int.toNat_ofNat, loopFrom]

/-- C11. scaleDepth never indexes out of bounds under its precondition. For width >= 0,
height >= 0 (Go ints) and a buffer with len(data) = width*height: when r >= 1, for every
x < floor(width/r) and y < floor(height/r) the read index computed by the code is
y*width*r + x*r, lies in [0, len(data)), and the write index is y*floor(width/r) + x, lies in
[0, floor(width/r)*floor(height/r)), the length of the result buffer, so scaleDepth returns
a result without a panic; r = 0 stops with "integer divide by zero"; and over all Go ints r,
scaleDepth returns a result exactly when r is not 0. -/
theorem scaleDepth_index_safety (data : List Nat) (width height r : Int)
    (hw : 0 ≤ width) (hh : 0 ≤ height)
    (hwi : inInt width) (hhi : inInt height) (hri : inInt r)
    (hfit : inInt (data.length : Int))
    (hlen : (data.length : Int) = width * height) :
    (1 ≤ r →
      (∀ x y : Nat, (x : Int) < width / r → (y : Int) < height / r →
        (addInt (mulInt (mulInt y width) r) (mulInt x r) = y * width * r + x * r ∧
          0 ≤ (y : Int) * width * r + x * r ∧
          (y : Int) * width * r + x * r < data.length) ∧
        (addInt (mulInt y (width / r)) x = y * (width / r) + x ∧
          0 ≤ (y : Int) * (width / r) + x ∧
          (y : Int) * (width / r) + x < (width / r) * (height / r))) ∧
      ∃ out, scaleDepth data width height r = .ok out ∧
        (out.length : Int) = (width / r) * (height / r)) ∧
    (r = 0 → scaleDepth data width height r = .panic "integer divide by zero") ∧
    ((∃ out, scaleDepth data width height r = .ok out) ↔ r ≠ 0) := by
  lift width to ℕ using hw with W
  lift height to ℕ using hh with H
  unfold inInt at hwi hhi hri hfit
  have hW : W < 9223372036854775808 := by omega
  have hH : H < 9223372036854775808 := by omega
  have hWH : W * H = data.length := by
    have : ((W * H : Nat) : Int) = (data.length : Int) := by push_cast; exact hlen.symm
    exact_mod_cast this
  have hWHb : W * H < 9223372036854775808 := by omega
  have hpos : 1 ≤ r →
      (∀ x y : Nat, (x : Int) < (W : Int) / r → (y : Int) < (H : Int) / r →
        (addInt (mulInt (mulInt y W) r) (mulInt x r) = y * (W : Int) * r + x * r ∧
          0 ≤ (y : Int) * W * r + x * r ∧
          (y : Int) * W * r + x * r < data.length) ∧
        (addInt (mulInt y ((W : Int) / r)) x = y * ((W : Int) / r) + x ∧
          0 ≤ (y : Int) * ((W : Int) / r) + x ∧
          (y : Int) * ((W : Int) / r) + x < ((W : Int) / r) * ((H : Int) / r))) ∧
      ∃ out, scaleDepth data (W : Int) (H : Int) r = .ok out ∧
        (out.length : Int) = ((W : Int) / r) * ((H : Int) / r) := by
    intro hr
    lift r to ℕ using (by omega : 0 ≤ r) with R
    have hR : 1 ≤ R := by omega
    have hidx : ∀ x y, x < W / R → y < H / R → y * W * R + x * R < data.length := by
      intro x y hx hy
      rw [← hWH]
      exact sample_index_lt W H R x y hR hx hy
    refine ⟨?_, ?_⟩
    · intro x y hx hy
      have hx1 : x < W / R := by exact_mod_cast hx
      have hy1 : y < H / R := by exact_mod_cast hy
      have h1 := hidx x y hx1 hy1
      have h2 := cell_index_lt (W / R) (H / R) x y hx1 hy1
      have h3 := div_mul_div_le W H R
      have h4 : y * W ≤ y * W * R := Nat.le_mul_of_pos_right _ (by omega)
      rw [mulInt_natCast y W (by omega), mulInt_natCast (y * W) R (by omega),
        mulInt_natCast x R (by omega), addInt_natCast _ _ (by omega),
        ← Int.natCast_div, mulInt_natCast y (W / R) (by omega), addInt_natCast _ _ (by omega),
        ← Int.natCast_div]
      refine ⟨⟨?_, ?_, ?_⟩, ?_, ?_, ?_⟩
      · push_cast; rfl
      · positivity
      · exact_mod_cast h1
      · push_cast; rfl
      · positivity
      · exact_mod_cast h2
    · obtain ⟨out, ho, hl, _⟩ := scaleDepth_fills data W H R hR hW hH hWHb hidx
      refine ⟨out, ho, ?_⟩
      rw [hl]
      push_cast
      rfl
  have hzero : r = 0 → scaleDepth data (W : Int) (H : Int) r = .panic "integer divide by zero" := by
    intro h0
    rw [h0]
    exact scaleDepth_zero_factor data _ _
  refine ⟨hpos, hzero, ⟨?_, ?_⟩⟩
  · rintro ⟨out, ho⟩ h0
    rw [hzero h0] at ho
    exact Outcome.noConfusion ho
  · intro hne
    rcases lt_or_gt_of_ne hne with hlt | hgt
    · obtain ⟨R, hR⟩ := Int.exists_eq_neg_ofNat (le_of_lt hlt)
      subst hR
      exact ⟨_, scaleDepth_neg_factor data W H R (by omega) hW hH hWHb⟩
    · obtain ⟨_, out, ho, _⟩ := hpos (by omega)
      exact ⟨out, ho⟩

theorem scaleDepth_index_safety_witness :
    ((1 : Int) ≤ 2 →
      (∀ x y : Nat, (x : Int) < (3 : Int) / 2 → (y : Int) < (2 : Int) / 2 →
        (addInt (mulInt (mulInt y 3) 2) (mulInt x 2) = y * 3 * 2 + x * 2 ∧
          0 ≤ (y : Int) * 3 * 2 + x * 2 ∧
          (y : Int) * 3 * 2 + x * 2 < ([60, 70, 80, 90, 10, 20] : List Nat).length) ∧
        (addInt (mulInt y ((3 : Int) / 2)) x = y * ((3 : Int) / 2) + x ∧
          0 ≤ (y : Int) * ((3 : Int) / 2) + x ∧
          (y : Int) * ((3 : Int) / 2) + x < ((3 : Int) / 2) * ((2 : Int) / 2))) ∧
      ∃ out, scaleDepth [60, 70, 80, 90, 10, 20] 3 2 2 = .ok out ∧
        (out.length : Int) = ((3 : Int) / 2) * ((2 : Int) / 2)) ∧
    ((2 : Int) = 0 →
      scaleDepth [60, 70, 80, 90, 10, 20] 3 2 2 = .panic "integer divide by zero") ∧
    ((∃ out, scaleDepth [60, 70, 80, 90, 10, 20] 3 2 2 = .ok out) ↔ (2 : Int) ≠ 0) :=
  scaleDepth_index_safety [60, 70, 80, 90, 10, 20] 3 2 2 (by decide) (by decide)
    (by decide) (by decide) (by decide) (by decide) (by decide)

end Skeltrack
